import Mathlib

/-!
Verification development for the iLearning-to-ICS scrapers
(`ilearning_to_ics.py`, the Moodle-like variant, called V1 below, and
`ilearning_to_ics_nchu.py`, the NCHU ee-class variant, called Nchu below).

The HTML layer (BeautifulSoup) is modelled at the table-row level: a row is
its ordered list of cell texts plus the first hyperlink found in it.  The
third-party date parser (`dateutil.parser.parse`) is modelled by `dtparse`
for the input subset exercised here; the model's limits are documented on
the definition.  Machine integers do not occur in the scripts; SHA-1 is
modelled over `Nat` with explicit reduction modulo 2 ^ 32.
-/

/-- Lower-case an ASCII letter, leave every other character unchanged
(the case folding performed by `re.IGNORECASE` on the ASCII patterns used
in both scripts). -/
def lowerCh (c : Char) : Char := c.toLower

/-- ASCII decimal digit (Python regex `\d` on the pages scraped here). -/
def isDigitCh (c : Char) : Bool := '0' ≤ c && c ≤ '9'

/-- ASCII letter (used by the lexer model of `dateutil`'s tokenizer). -/
def isAlphaCh (c : Char) : Bool :=
  ('a' ≤ c && c ≤ 'z') || ('A' ≤ c && c ≤ 'Z')

/-- Whitespace as matched by Python's `\s` / `str.strip` on the inputs in
this development (ASCII whitespace). -/
def isSpaceCh (c : Char) : Bool :=
  c = ' ' || c = '\t' || c = '\n' || c = '\r' || c = '\x0b' || c = '\x0c'

/-- Exact list-prefix test on characters. -/
def isPrefixOfB : List Char → List Char → Bool
  | [], _ => true
  | _ :: _, [] => false
  | a :: as, b :: bs => a == b && isPrefixOfB as bs

/-- Case-insensitive (ASCII) list-prefix test. -/
def isPrefixCI : List Char → List Char → Bool
  | [], _ => true
  | _ :: _, [] => false
  | a :: as, b :: bs => lowerCh a == lowerCh b && isPrefixCI as bs

/-- Substring containment, `needle in hay` of Python. -/
def containsTok (needle : List Char) : List Char → Bool
  | [] => isPrefixOfB needle []
  | c :: cs => isPrefixOfB needle (c :: cs) || containsTok needle cs

/-- Case-insensitive substring containment: `re.search(keyword, s, re.I)`
for a literal keyword. -/
def containsCI (needle : String) (hay : String) : Bool :=
  containsTok (needle.data.map lowerCh) (hay.data.map lowerCh)

/-- Exact substring containment: Python's `needle in hay`. -/
def containsStr (needle : String) (hay : String) : Bool :=
  containsTok needle.data hay.data

/-- Python `str.strip()` / BeautifulSoup `get_text(strip=True)` on a single
text node: remove leading and trailing whitespace. -/
def pyStrip (s : String) : String :=
  ⟨((s.data.dropWhile isSpaceCh).reverse.dropWhile isSpaceCh).reverse⟩

/-- Python `" ".flatten(tds)`, used to glue the row's cell texts. -/
def joinSpace : List String → String
  | [] => ""
  | [t] => t
  | t :: rest => t ++ " " ++ joinSpace rest

/-- Python `str.startswith("http")` (exact, case-sensitive). -/
def startsWithStr (p s : String) : Bool := isPrefixOfB p.data s.data

/-- Python `str.lstrip("/")`. -/
def lstripSlash (s : String) : String :=
  ⟨s.data.dropWhile (fun c => c = '/')⟩

/-! ### Model of the date/time parser

Both scripts hand candidate text to `dateutil.parser.parse(text, fuzzy=True,
dayfirst=False)` (the NCHU fallback call omits `dayfirst`, whose library
default is `False`).  `dtparse` models that library call on the input
subset that occurs in this development: texts whose date is given as a
full numeric triple `N sep N sep N` with separators `-` or `/`, optionally
accompanied by a clock time `H:MM` or `H:MM:SS`, surrounded by arbitrary
word/punctuation tokens (skipped under `fuzzy`).  Outside that subset the
model returns `none`; in particular bare numeric tokens, month names,
two-digit years, missing date components (which `dateutil` fills from
"today") and explicit time-zone designators are not modelled, and no
theorem below depends on inputs that use them. -/

/-- Token of the lexer model: a digit run (value and run length), a letter
run, or a single other character.  Whitespace separates tokens. -/
inductive Tok where
  | num (v len : Nat)
  | word (w : List Char)
  | sym (c : Char)
deriving DecidableEq

/-- Numeric value of a digit run. -/
def digitsToNat (ds : List Char) : Nat :=
  ds.foldl (fun acc c => acc * 10 + (c.toNat - 48)) 0

/-- Lexer model, fuel-indexed for structural recursion: every step
consumes at least one character and one unit of fuel, so with
`fuel = cs.length` the fuel never runs out and the `fuel = 0` branch is
unreachable. -/
def lexFuel : Nat → List Char → List Tok
  | 0, _ => []
  | _, [] => []
  | fu + 1, c :: cs =>
    if isDigitCh c then
      let ds := c :: cs.takeWhile isDigitCh
      Tok.num (digitsToNat ds) ds.length :: lexFuel fu (cs.dropWhile isDigitCh)
    else if isAlphaCh c then
      Tok.word (c :: cs.takeWhile isAlphaCh) :: lexFuel fu (cs.dropWhile isAlphaCh)
    else if isSpaceCh c then
      lexFuel fu cs
    else
      Tok.sym c :: lexFuel fu cs

/-- Lexer model: split a character list into digit runs, ASCII-letter runs
and single symbol characters, discarding whitespace. -/
def lexAux (cs : List Char) : List Tok := lexFuel cs.length cs

/-- Date separator characters recognised by the model. -/
def isSepCh (c : Char) : Bool := c = '-' || c = '/'

/-- Raw numeric date triple collected while scanning: the three values and
their digit-run lengths, in textual order. -/
structure Trip where
  a : Nat
  la : Nat
  b : Nat
  lb : Nat
  c : Nat
  lc : Nat
deriving DecidableEq

/-- Scan the token list, collecting at most one date triple and one clock
time; duplicated information makes the parse fail (as `dateutil` raises on
conflicting values), and any unrecognised token fails unless `fuzzy`. -/
def scanToks (fuzzy : Bool) : List Tok → Option Trip → Option (Nat × Nat) →
    Option (Option Trip × Option (Nat × Nat))
  | [], dacc, tacc => some (dacc, tacc)
  | Tok.word _ :: rest, dacc, tacc =>
    if fuzzy then scanToks fuzzy rest dacc tacc else none
  | Tok.num a la :: Tok.sym s1 :: Tok.num b lb :: Tok.sym s2 :: Tok.num c lc :: rest,
      dacc, tacc =>
    if isSepCh s1 && isSepCh s2 then
      match dacc with
      | some _ => none
      | none => scanToks fuzzy rest (some ⟨a, la, b, lb, c, lc⟩) tacc
    else if s1 = ':' then
      match tacc with
      | some _ => none
      | none =>
        if s2 = ':' then
          if c ≤ 59 then scanToks fuzzy rest dacc (some (a, b)) else none
        else scanToks fuzzy (Tok.sym s2 :: Tok.num c lc :: rest) dacc (some (a, b))
    else none
  | Tok.num a _ :: Tok.sym s1 :: Tok.num b _ :: rest, dacc, tacc =>
    if s1 = ':' then
      match tacc with
      | some _ => none
      | none => scanToks fuzzy rest dacc (some (a, b))
    else none
  | Tok.num _ _ :: _, _, _ => none
  | Tok.sym _ :: rest, dacc, tacc =>
    if fuzzy then scanToks fuzzy rest dacc tacc else none

/-- Swap month and day when the month slot is impossible and the day slot
could be a month (`dateutil`'s `_ymd.resolve` correction). -/
def fixMonthDay (m d : Nat) : Nat × Nat :=
  if m > 12 && d ≤ 12 then (d, m) else (m, d)

/-- Resolve a raw triple into `(year, month, day)`: a four-digit or `> 31`
number is the year; with the year last, the leading pair is read
month-first unless `dayfirst`. -/
def resolveYMD (dayfirst : Bool) (t : Trip) : Option (Nat × Nat × Nat) :=
  if t.la = 4 || t.a > 31 then
    let (m, d) := fixMonthDay t.b t.c
    some (t.a, m, d)
  else if t.lc = 4 || t.c > 31 then
    let md := if dayfirst then (t.b, t.a) else (t.a, t.b)
    let (m, d) := fixMonthDay md.1 md.2
    some (t.c, m, d)
  else none

/-- Python `datetime` model: a wall-clock reading plus an optional time
zone (`tzinfo`), identified by name.  `tzinfo = none` is a naive datetime. -/
structure PyDatetime where
  year : Nat
  month : Nat
  day : Nat
  hour : Nat
  minute : Nat
  tzinfo : Option String
deriving DecidableEq

/-- Length of a month, with Gregorian leap years (the range check done by
the `datetime` constructor). -/
def daysInMonth (y m : Nat) : Nat :=
  if m = 2 then
    if (y % 4 = 0 && y % 100 ≠ 0) || y % 400 = 0 then 29 else 28
  else if m = 4 || m = 6 || m = 9 || m = 11 then 30
  else 31

/-- Build a naive datetime, enforcing the `datetime` constructor's field
ranges. -/
def mkDatetime (y m d h mi : Nat) : Option PyDatetime :=
  if 1 ≤ y && y ≤ 9999 && 1 ≤ m && m ≤ 12 && 1 ≤ d && d ≤ daysInMonth y m
      && h ≤ 23 && mi ≤ 59 then
    some ⟨y, m, d, h, mi, none⟩
  else none

/-- Model of `dateutil.parser.parse(s, fuzzy=..., dayfirst=...)` on the
input subset described above; absent time components default to `0:00`
(the library's default datetime has a zero clock time). -/
def dtparse (fuzzy dayfirst : Bool) (s : String) : Option PyDatetime :=
  match scanToks fuzzy (lexAux s.data) none none with
  | none => none
  | some (dacc, tacc) =>
    match dacc with
    | none => none
    | some tr =>
      match resolveYMD dayfirst tr with
      | none => none
      | some (y, m, d) =>
        let hm := tacc.getD (0, 0)
        mkDatetime y m d hm.1 hm.2

/-! ### Models of the regular expressions of both scripts -/

/-- Does `c` count as the optional colon of the label patterns
(`[:：]?`)? -/
def isColonCh (c : Char) : Bool := c = ':' || c = '：'

/-- Match the pattern `(alt1|alt2|...)[:：]?\s*` (case-insensitively) at
the head of `cs`; alternatives are tried left to right as in a regex
alternation.  Returns the number of characters consumed. -/
def matchLabel (alts : List (List Char)) (cs : List Char) : Option Nat :=
  match alts.find? (fun alt => isPrefixCI alt cs) with
  | none => none
  | some alt =>
    let rest := cs.drop alt.length
    let rest2 :=
      match rest with
      | c :: cs2 => if isColonCh c then cs2 else rest
      | [] => []
    let rest3 := rest2.dropWhile isSpaceCh
    some (cs.length - rest3.length)

/-- Global substitution scan, fuel-indexed for structural recursion:
every step consumes at least one character and one unit of fuel
(a zero-length label match — impossible, the alternatives are nonempty —
would advance by one character, as `re.sub` does on an empty match). -/
def subFuel (alts : List (List Char)) : Nat → List Char → List Char
  | 0, l => l
  | _, [] => []
  | fu + 1, c :: cs =>
    match matchLabel alts (c :: cs) with
    | some k =>
      if k = 0 then c :: subFuel alts fu cs
      else subFuel alts fu ((c :: cs).drop k)
    | none => c :: subFuel alts fu cs

/-- Global substitution of the label pattern by the empty string
(`re.sub(pattern, "", text)`): scan left to right, delete each match,
resume after it. -/
def subLabels (alts : List (List Char)) (cs : List Char) : List Char :=
  subFuel alts cs.length cs

/-- Alternatives of the V1 prefix-cleaning pattern
`^(Due date|截止|繳交期限|到期)[:：]?\s*` (line 125 of
`ilearning_to_ics.py`). -/
def altsV1 : List (List Char) :=
  ["Due date".data, "截止".data, "繳交期限".data, "到期".data]

/-- V1 label strip: the pattern is anchored at the start, so `re.sub`
deletes at most one match, at position 0. -/
def stripLabelV1 (s : String) : String :=
  match matchLabel altsV1 s.data with
  | none => s
  | some k => ⟨s.data.drop k⟩

/-- Alternatives of the NCHU cleaning pattern
`(繳交期限|截止|到期|Due|截止時間)[:：]?\s*` (line 94 of
`ilearning_to_ics_nchu.py`); unanchored, so every occurrence is deleted. -/
def altsNchu : List (List Char) :=
  ["繳交期限".data, "截止".data, "到期".data, "Due".data, "截止時間".data]

/-- NCHU label removal, `re.sub(r"(繳交期限|截止|到期|Due|截止時間)[:：]?\s*", "", text)`. -/
def subLabelsNchu (s : String) : String := ⟨subLabels altsNchu s.data⟩

/-- V1 due-keyword test, `re.search(r"(due|截止|繳交|期限|到期)", td_text, re.I)`
(line 113 of `ilearning_to_ics.py`). -/
def kwSearchV1 (s : String) : Bool :=
  ["due", "截止", "繳交", "期限", "到期"].any (fun k => containsCI k s)

/-- NCHU due-keyword test, `re.search(r"(繳交期限|截止|到期|Due)", td_text, re.I)`
(line 130 of `ilearning_to_ics_nchu.py`, also used by `parse_detail_due`). -/
def kwSearchNchu (s : String) : Bool :=
  ["繳交期限", "截止", "到期", "Due"].any (fun k => containsCI k s)

/-- V1 due-cell selection: walk the cells in reverse order and keep the
first (i.e. rightmost) cell whose text contains a due keyword
(lines 111–115). -/
def findDueCellV1 (tds : List String) : Option String :=
  tds.reverse.find? kwSearchV1

/-- NCHU due-cell selection over `tds[::-1]` (lines 128–132). -/
def findDueCellNchu (tds : List String) : Option String :=
  tds.reverse.find? kwSearchNchu

/-- Take exactly `k` leading digits. -/
def takeDigits : Nat → List Char → Option (List Char × List Char)
  | 0, cs => some ([], cs)
  | _ + 1, [] => none
  | k + 1, c :: cs =>
    if isDigitCh c then
      match takeDigits k cs with
      | none => none
      | some (ds, r) => some (c :: ds, r)
    else none

/-- Match a one- or two-digit number followed by a `-` or `/` separator, greedily (two digits preferred, with regex
backtracking to one). -/
def num2sep (cs : List Char) : Option (List Char × List Char) :=
  match cs with
  | a :: b :: c :: rest =>
    if isDigitCh a && isDigitCh b && isSepCh c then some ([a, b, c], rest)
    else if isDigitCh a && isSepCh b then some ([a, b], c :: rest)
    else none
  | [a, b] => if isDigitCh a && isSepCh b then some ([a, b], []) else none
  | _ => none

/-- Match `\d{1,2}` greedily (at least one digit). -/
def num1or2 (cs : List Char) : Option (List Char × List Char) :=
  match cs with
  | a :: b :: rest =>
    if isDigitCh a && isDigitCh b then some ([a, b], rest)
    else if isDigitCh a then some ([a], b :: rest)
    else none
  | [a] => if isDigitCh a then some ([a], []) else none
  | [] => none

/-- Match `\d{1,2}:\d{2}` at the head (greedy hour with backtracking). -/
def hmMatch (cs : List Char) : Option (List Char) :=
  match cs with
  | a :: b :: c :: d :: e :: _ =>
    if isDigitCh a && isDigitCh b && c = ':' && isDigitCh d && isDigitCh e then
      some [a, b, c, d, e]
    else if isDigitCh a && b = ':' && isDigitCh c && isDigitCh d then
      some [a, b, c, d]
    else none
  | [a, b, c, d] =>
    if isDigitCh a && b = ':' && isDigitCh c && isDigitCh d then
      some [a, b, c, d]
    else none
  | _ => none

/-- Match the optional time tail: V1 uses `([ T]\d{1,2}:\d{2})?`, the NCHU
fallback uses `(?:\s+\d{1,2}:\d{2})?` (`nchuWs` selects the latter). -/
def timeTail (nchuWs : Bool) (cs : List Char) : Option (List Char) :=
  if nchuWs then
    let sp := cs.takeWhile isSpaceCh
    if sp.length = 0 then none
    else
      match hmMatch (cs.drop sp.length) with
      | none => none
      | some t => some (sp ++ t)
  else
    match cs with
    | c :: rest =>
      if c = ' ' || c = 'T' then
        match hmMatch rest with
        | none => none
        | some t => some (c :: t)
      else none
    | [] => none

/-- Match the date-token pattern (four-digit year, `-` or `/` separator,
one- or two-digit month and day, optional time) at the head of `cs`,
returning the matched characters. -/
def dateTokAt (nchuWs : Bool) (cs : List Char) : Option (List Char) :=
  match takeDigits 4 cs with
  | none => none
  | some (y, r1) =>
    match r1 with
    | [] => none
    | s1 :: r2 =>
      if isSepCh s1 then
        match num2sep r2 with
        | none => none
        | some (mcs, r3) =>
          match num1or2 r3 with
          | none => none
          | some (dcs, r4) =>
            let base := y ++ s1 :: (mcs ++ dcs)
            match timeTail nchuWs r4 with
            | some t => some (base ++ t)
            | none => some base
      else none

/-- `re.search` for the date-token pattern: try every start position left
to right and return the first match. -/
def dateTokSearch (nchuWs : Bool) : List Char → Option (List Char)
  | [] => none
  | c :: cs =>
    match dateTokAt nchuWs (c :: cs) with
    | some t => some t
    | none => dateTokSearch nchuWs cs

/-- V1 fallback search for the 4-digit-year date pattern with separator `-` or `/` and optional `[ T]\d{1,2}:\d{2}` time, group 1 (lines 117–120). -/
def dateTokSearchV1 (s : String) : Option String :=
  (dateTokSearch false s.data).map (fun l => ⟨l⟩)

/-- NCHU fallback search for the same date pattern with `\s+\d{1,2}:\d{2}` time tail, group 0 (line 102). -/
def dateTokSearchNchu (s : String) : Option String :=
  (dateTokSearch true s.data).map (fun l => ⟨l⟩)

/-! ### SHA-1 and the stable uid (`hashlib.sha1`, `stable_uid`) -/

/-- Reduce modulo 2 ^ 32 (SHA-1 works on 32-bit words). -/
def w32 (n : Nat) : Nat := n % 4294967296

/-- Left rotation of a 32-bit word by `s` bits. -/
def rotl32 (s n : Nat) : Nat :=
  w32 (w32 (n * 2 ^ s) + n / 2 ^ (32 - s))

/-- UTF-8 encoding of one code point (Python `str.encode("utf-8")`). -/
def utf8Char (c : Char) : List Nat :=
  let n := c.toNat
  if n < 128 then [n]
  else if n < 2048 then [192 + n / 64, 128 + n % 64]
  else if n < 65536 then
    [224 + n / 4096, 128 + n / 64 % 64, 128 + n % 64]
  else
    [240 + n / 262144, 128 + n / 4096 % 64, 128 + n / 64 % 64, 128 + n % 64]

/-- UTF-8 encoding of a string as a byte list. -/
def utf8 (s : String) : List Nat := (s.data.map utf8Char).flatten

/-- Big-endian byte decomposition of `n` into `k` bytes. -/
def bytesBE (k n : Nat) : List Nat :=
  (List.range k).map (fun i => n / 2 ^ (8 * (k - 1 - i)) % 256)

/-- SHA-1 message padding: append `0x80`, zero bytes up to 56 mod 64, and
the 8-byte big-endian bit length. -/
def sha1pad (msg : List Nat) : List Nat :=
  msg ++ 128 :: List.replicate ((120 - (msg.length + 1) % 64) % 64) 0
      ++ bytesBE 8 (msg.length * 8)

/-- Chunk splitting, fuel-indexed for structural recursion: every step
consumes at least one byte and one unit of fuel. -/
def chunksFuel : Nat → List Nat → List (List Nat)
  | 0, _ => []
  | _, [] => []
  | fu + 1, c :: cs => (c :: cs).take 64 :: chunksFuel fu ((c :: cs).drop 64)

/-- Split a byte list into 64-byte chunks. -/
def chunks64 (l : List Nat) : List (List Nat) := chunksFuel l.length l

/-- Big-endian 32-bit words of a 64-byte chunk. -/
def wordsOf : List Nat → List Nat
  | b0 :: b1 :: b2 :: b3 :: rest =>
    (((b0 * 256 + b1) * 256 + b2) * 256 + b3) :: wordsOf rest
  | _ => []

/-- Message-schedule extension from 16 to 80 words. -/
def sha1extend (ws : List Nat) : List Nat :=
  (List.range 64).foldl
    (fun acc _ =>
      acc ++ [rotl32 1 (((acc.getD (acc.length - 3) 0 ^^^ acc.getD (acc.length - 8) 0)
        ^^^ acc.getD (acc.length - 14) 0) ^^^ acc.getD (acc.length - 16) 0)])
    ws

/-- SHA-1 round function. -/
def sha1f (t b c d : Nat) : Nat :=
  if t < 20 then (b &&& c) ||| ((b ^^^ 4294967295) &&& d)
  else if t < 40 then (b ^^^ c) ^^^ d
  else if t < 60 then ((b &&& c) ||| (b &&& d)) ||| (c &&& d)
  else (b ^^^ c) ^^^ d

/-- SHA-1 round constant. -/
def sha1k (t : Nat) : Nat :=
  if t < 20 then 1518500249
  else if t < 40 then 1859775393
  else if t < 60 then 2400959708
  else 3395469782

/-- One SHA-1 round on the five-word state. -/
def sha1round (st : Nat × Nat × Nat × Nat × Nat) (tw : Nat × Nat) :
    Nat × Nat × Nat × Nat × Nat :=
  let (a, b, c, d, e) := st
  let tmp := w32 (rotl32 5 a + sha1f tw.1 b c d + e + sha1k tw.1 + tw.2)
  (tmp, a, rotl32 30 b, c, d)

/-- Process one 64-byte chunk. -/
def sha1chunk (h : Nat × Nat × Nat × Nat × Nat) (chunk : List Nat) :
    Nat × Nat × Nat × Nat × Nat :=
  let ws := sha1extend (wordsOf chunk)
  let st := ws.enum.foldl sha1round h
  (w32 (h.1 + st.1), w32 (h.2.1 + st.2.1), w32 (h.2.2.1 + st.2.2.1),
    w32 (h.2.2.2.1 + st.2.2.2.1), w32 (h.2.2.2.2 + st.2.2.2.2))

/-- SHA-1 digest of a byte list, as 20 bytes. -/
def sha1 (msg : List Nat) : List Nat :=
  let h := (chunks64 (sha1pad msg)).foldl sha1chunk
    (1732584193, 4023233417, 2562383102, 271733878, 3285377520)
  bytesBE 4 h.1 ++ bytesBE 4 h.2.1 ++ bytesBE 4 h.2.2.1
    ++ bytesBE 4 h.2.2.2.1 ++ bytesBE 4 h.2.2.2.2

/-- Lower-case hex digit. -/
def hexDigitCh (n : Nat) : Char :=
  if n < 10 then Char.ofNat (48 + n) else Char.ofNat (87 + n)

/-- `hashlib.sha1(bytes).hexdigest()`. -/
def sha1hex (msg : List Nat) : String :=
  ⟨((sha1 msg).map (fun b => [hexDigitCh (b / 16), hexDigitCh (b % 16)])).flatten⟩

/-- V1 `stable_uid` (lines 152–153 of `ilearning_to_ics.py`):
`hashlib.sha1(s.encode("utf-8")).hexdigest() + "@ilearning-ics"`. -/
def stable_uid (s : String) : String := sha1hex (utf8 s) ++ "@ilearning-ics"

/-- The uid V1 assigns to an event: `stable_uid(ev["url"] + ev["title"])`
(line 167). -/
def uidOfV1 (url title : String) : String := stable_uid (url ++ title)

/-- The uid the NCHU variant assigns (line 175):
`hashlib.sha1((url + title).encode("utf-8")).hexdigest() + "@eeclass-ics"`. -/
def uidOfNchu (url title : String) : String :=
  sha1hex (utf8 (url ++ title)) ++ "@eeclass-ics"

/-! ### Shared row model

A table row is modelled as the data the scripts read from it: the first
hyperlink (`tr.find("a", href=True)`, giving its `href` and visible text)
and the texts of the row's `td` cells
(`[td.get_text(" ", strip=True) for td in tr.find_all("td")]`). -/

/-- One `<tr>` of an assignment table, as seen by both scripts. -/
structure Row where
  link : Option (String × String)
  tds : List String
deriving DecidableEq

/-- Attach or convert to the configured zone (lines 132–135 / 163–166):
a naive datetime gets `tzinfo = LOCAL_TZ`; an aware one is passed through
`astimezone(LOCAL_TZ)`.  Wall-clock adjustment in the aware branch is not
modelled: `dtparse` only produces naive datetimes (no modelled input
carries an explicit zone), so that branch is never exercised here. -/
def toLocal (tzname : String) (dt : PyDatetime) : PyDatetime :=
  match dt.tzinfo with
  | none => { dt with tzinfo := some tzname }
  | some _ => { dt with tzinfo := some tzname }

namespace V1

/-- Due-text selection for a row (lines 109–122): rightmost keyword cell,
else the first date-shaped token of the joined cell texts; `none` when
both heuristics fail (the row is then skipped). -/
def rowDueText (tds : List String) : Option String :=
  match findDueCellV1 tds with
  | some t => some t
  | none => dateTokSearchV1 (joinSpace tds)

/-- The V1 normalizer (lines 124–135): strip the label prefix, parse with
`dayfirst=False, fuzzy=True`, and attach/convert to the local zone. -/
def normalize (tzname : String) (s : String) : Option PyDatetime :=
  (dtparse true false (stripLabelV1 s)).map (toLocal tzname)

/-- Model of `urljoin(BASE + "/", href.lstrip("/"))` (line 137); an
absolute `href` replaces the base.  RFC 3986 path normalisation is not
modelled (no claim depends on it). -/
def urljoinV1 (base href : String) : String :=
  let rel := lstripSlash href
  if startsWithStr "http" rel then rel else base ++ "/" ++ rel

/-- A V1 normalized assignment (the dict of line 138). -/
structure EventV1 where
  title : String
  due_at : PyDatetime
  url : String
  course_id : String
deriving DecidableEq

/-- Handling of one row inside `parse_assign_table` (lines 103–143):
reject rows without an assignment link, pick the due text, normalize it,
and build the event; any failure skips the row. -/
def parseRow (base cid tzname : String) (r : Row) : Option EventV1 :=
  match r.link with
  | none => none
  | some (href, atext) =>
    if containsStr "mod/assign" href then
      match rowDueText r.tds with
      | none => none
      | some dtext =>
        (normalize tzname dtext).map (fun dt =>
          { title := pyStrip atext, due_at := dt,
            url := urljoinV1 base href, course_id := cid })
    else none

/-- `parse_assign_table` over the rows of the page's first table. -/
def parse_assign_table (base cid tzname : String) : List Row → List EventV1
  | [] => []
  | r :: rest =>
    match parseRow base cid tzname r with
    | none => parse_assign_table base cid tzname rest
    | some ev => ev :: parse_assign_table base cid tzname rest

/-- A calendar event as `build_calendar` fills it (lines 155-174); alarm
triggers are minute offsets (one day and three hours before). -/
structure CalEvent where
  name : String
  beginT : PyDatetime
  endT : PyDatetime
  created : PyDatetime
  lastModified : PyDatetime
  url : String
  description : String
  uid : String
  alarms : List Int
deriving DecidableEq

/-- V1 `build_calendar` (lines 155–174): one event per assignment, no
filtering. -/
def build_calendar (now : PyDatetime) : List EventV1 → List CalEvent
  | [] => []
  | ev :: rest =>
    { name := "[iLearning] " ++ ev.title,
      beginT := ev.due_at, endT := ev.due_at,
      created := now, lastModified := now,
      url := ev.url,
      description := "來源: " ++ ev.url ++ "\\n課程ID: " ++ ev.course_id,
      uid := stable_uid (ev.url ++ ev.title),
      alarms := [-1440, -180] } :: build_calendar now rest

/-- The per-course loop of V1 `main` (lines 179–187): each course's fetch
and parse (`fetch_course_assignments`, abstracted as `fetchCourse`) runs
inside `try`, an exception only skips that course. -/
def mainLoop (fetchCourse : String → Except String (List EventV1)) :
    List String → List EventV1
  | [] => []
  | cid :: rest =>
    match fetchCourse cid with
    | .ok evs => evs ++ mainLoop fetchCourse rest
    | .error _ => mainLoop fetchCourse rest

end V1

namespace Nchu

/-- A collected NCHU candidate, the `(title, dt, detail_url)` tuple of
`parse_list_page`. -/
abbrev Item := String × Option PyDatetime × String

/-- NCHU `parse_due` (lines 92–108): delete label occurrences, try the
permissive parse, and on failure parse the first date-shaped token if
any. -/
def parse_due (text : String) : Option PyDatetime :=
  let txt := subLabelsNchu text
  match dtparse true false txt with
  | some dt => some dt
  | none =>
    match dateTokSearchNchu txt with
    | some tok => dtparse true false tok
    | none => none

/-- NCHU `to_abs` (lines 55–58). -/
def to_abs (base url_or_path : String) : String :=
  if startsWithStr "http" url_or_path then url_or_path
  else base ++ "/" ++ lstripSlash url_or_path

/-- Model of `urljoin(list_url, href)` (line 137 of the NCHU script); an
absolute `href` replaces the base, otherwise it is resolved against it.
RFC 3986 path normalisation is not modelled (no claim depends on it). -/
def urljoinNchu (base href : String) : String :=
  if startsWithStr "http" href then href else base ++ href

/-- The acceptance test of lines 120–123: a row is kept iff its link looks
like a homework link (the two `/content` tests each imply the plain
`/homework` test, which decides). -/
def hrefAccepted (href : String) : Bool :=
  if !containsStr "/course/homework/content" href
      && !containsStr "/homework/content" href then
    containsStr "/homework" href
  else true

/-- The due text `parse_list_page` hands to `parse_due` (lines 127–135):
the rightmost keyword cell, else the whole joined row text. -/
def rowDueText (tds : List String) : String :=
  match findDueCellNchu tds with
  | some t => t
  | none => joinSpace tds

/-- Handling of one row inside `parse_list_page` (lines 115–138). -/
def parseRow (listUrl : String) (r : Row) : Option Item :=
  match r.link with
  | none => none
  | some (href, atext) =>
    if hrefAccepted href then
      some (pyStrip atext, parse_due (rowDueText r.tds), urljoinNchu listUrl href)
    else none

/-- NCHU `parse_list_page` (lines 110–139). -/
def parse_list_page (listUrl : String) : List Row → List Item
  | [] => []
  | r :: rest =>
    match parseRow listUrl r with
    | none => parse_list_page listUrl rest
    | some it => it :: parse_list_page listUrl rest

/-- A homework detail page as `parse_detail_due` reads it: the text nodes
matched by `find_all(text=keyword-regex)` with their parents' texts, and
the whole page text. -/
structure DetailPage where
  nodes : List (String × String)
  fullText : String
deriving DecidableEq

/-- NCHU `parse_detail_due` (lines 141–152): collect the keyword-adjacent
blocks (a node's parent text, or the node itself when the parent text is
empty), join them — falling back to the page text when there are none —
and run `parse_due`. -/
def parse_detail_due (p : DetailPage) : Option PyDatetime :=
  let nodes := p.nodes.filter (fun n => kwSearchNchu n.1)
  let candidates := nodes.map (fun n => if n.2 ≠ "" then n.2 else n.1)
  let text := if candidates.isEmpty then p.fullText else joinSpace candidates
  parse_due text

/-- The deep-fetch enrichment of one candidate (lines 194–204): only a
candidate with no due date is deep-fetched; a fetch failure or an
unparseable detail page leaves it unchanged. -/
def enrichOne (getDetail : String → Except String DetailPage) (it : Item) : Item :=
  let (title, dt0, url) := it
  let dt1 :=
    match dt0 with
    | some d => some d
    | none =>
      match getDetail url with
      | .error _ => none
      | .ok page =>
        match parse_detail_due page with
        | some d => some d
        | none => none
  (title, dt1, url)

/-- The deep-fetch pass over a page's candidates (lines 192–205). -/
def deepFetchPass (getDetail : String → Except String DetailPage) :
    List Item → List Item
  | [] => []
  | it :: rest => enrichOne getDetail it :: deepFetchPass getDetail rest

/-- NCHU `build_calendar` (lines 154–178): candidates without a due date
are skipped; the rest become aware instant events. -/
def build_calendar (tzname : String) (now : PyDatetime) : List Item → List V1.CalEvent
  | [] => []
  | (title, due0, url) :: rest =>
    match due0 with
    | none => build_calendar tzname now rest
    | some due =>
      let dueL := toLocal tzname due
      { name := "[iLearning] " ++ title,
        beginT := dueL, endT := dueL,
        created := now, lastModified := now,
        url := url,
        description := "來源: " ++ url,
        uid := uidOfNchu url title,
        alarms := [-1440, -180] } :: build_calendar tzname now rest

/-- The per-URL processing of NCHU `main` for one listing page
(lines 186–210): parse the listing, optionally deep-fetch, and drop
candidates with empty titles. -/
def processPage (deep : Bool) (getDetail : String → Except String DetailPage)
    (listUrl : String) (rows : List Row) : List Item :=
  let items0 := parse_list_page listUrl rows
  let items1 := if deep then deepFetchPass getDetail items0 else items0
  items1.filter (fun it => it.1 != "")

/-- The per-URL loop of NCHU `main` (lines 184–210).  Unlike V1, the fetch
of a listing page (`sess.get` + `raise_for_status`) is NOT wrapped in
`try`: a failure propagates and aborts the whole run. -/
def mainLoop (base : String) (fetchPage : String → Except String (List Row))
    (deep : Bool) (getDetail : String → Except String DetailPage) :
    List String → Except String (List Item)
  | [] => .ok []
  | u :: us =>
    match fetchPage (to_abs base u) with
    | .error e => .error e
    | .ok rows =>
      let items := processPage deep getDetail (to_abs base u) rows
      match mainLoop base fetchPage deep getDetail us with
      | .error e => .error e
      | .ok restItems => .ok (items ++ restItems)

end Nchu

/-- A fixed build time used by concrete instances below. -/
def sampleNow : PyDatetime := ⟨2025, 1, 1, 0, 0, some "Asia/Taipei"⟩

/-! ### Helper lemmas -/

/-- Both branches of `toLocal` leave the datetime carrying the configured
zone. -/
theorem toLocal_tzinfo (tzname : String) (dt : PyDatetime) :
    (toLocal tzname dt).tzinfo = some tzname := by
  unfold toLocal
  rcases dt.tzinfo with _ | z <;> rfl

/-- The V1 normalizer only returns datetimes carrying the configured
zone. -/
theorem V1.normalize_tz {tzname s : String} {dt : PyDatetime}
    (h : V1.normalize tzname s = some dt) : dt.tzinfo = some tzname := by
  unfold V1.normalize at h
  rcases Option.map_eq_some'.mp h with ⟨d0, _, hd⟩
  rw [← hd]
  exact toLocal_tzinfo tzname d0

/-- Every event `parseRow` produces has an aware due datetime in the
configured zone. -/
theorem V1.parseRow_tz {base cid tzname : String} {r : Row} {ev : V1.EventV1}
    (h : V1.parseRow base cid tzname r = some ev) :
    ev.due_at.tzinfo = some tzname := by
  unfold V1.parseRow at h
  split at h
  · exact absurd h (by simp)
  · split at h
    · split at h
      · exact absurd h (by simp)
      · rcases Option.map_eq_some'.mp h with ⟨dt, hdt, hev⟩
        rw [← hev]
        exact V1.normalize_tz hdt
    · exact absurd h (by simp)

/-- `find?` skips a leading block in which the predicate fails
everywhere. -/
theorem find?_append_none {p : String → Bool} :
    ∀ {l1 : List String} (l2 : List String),
      (∀ x ∈ l1, p x = false) → (l1 ++ l2).find? p = l2.find? p
  | [], _, _ => rfl
  | a :: as, l2, h => by
    have ha : p a = false := h a (List.mem_cons_self a as)
    simp only [List.cons_append, List.find?, ha]
    exact find?_append_none l2 (fun x hx => h x (List.mem_cons_of_mem a hx))

/-! ### Claim C1 -/

/-- Claim C1, counterexample: the uid is the SHA-1 of the plain
concatenation `sourceUrl + title`, so the two distinct pairs
`("a", "bc")` and `("ab", "c")`, whose concatenations coincide, receive
the same uid — the claim's final clause fails. -/
theorem C1_counterexample :
    uidOfV1 "a" "bc" = uidOfV1 "ab" "c" ∧
    (("a", "bc") : String × String) ≠ (("ab", "c") : String × String) := by
  constructor
  · show stable_uid ("a" ++ "bc") = stable_uid ("ab" ++ "c")
    exact congrArg stable_uid (by decide)
  · decide

/-- Claim C1, amended: in both variants the uid is deterministic, ends in
the variant's fixed namespace suffix, and depends only on the
concatenation `sourceUrl ++ title` — pairs with equal concatenations
always receive equal uids, and only differing concatenations can give
differing uids (up to hash collision). -/
theorem C1_uid_concat :
    (∀ u t u2 t2 : String, u ++ t = u2 ++ t2 →
      uidOfV1 u t = uidOfV1 u2 t2 ∧ uidOfNchu u t = uidOfNchu u2 t2) ∧
    (∀ u t : String, ∃ h1 h2 : String,
      uidOfV1 u t = h1 ++ "@ilearning-ics" ∧
      uidOfNchu u t = h2 ++ "@eeclass-ics") := by
  constructor
  · intro u t u2 t2 h
    exact ⟨congrArg stable_uid h,
      congrArg (fun s => sha1hex (utf8 s) ++ "@eeclass-ics") h⟩
  · intro u t
    exact ⟨sha1hex (utf8 (u ++ t)), sha1hex (utf8 (u ++ t)), rfl, rfl⟩

/-- Claim C1, witness: the amended theorem applied to the concrete split
`"ab" ++ "c" = "a" ++ "bc"`. -/
theorem C1_uid_concat_witness : uidOfNchu "ab" "c" = uidOfNchu "a" "bc" :=
  (C1_uid_concat.1 "ab" "c" "a" "bc" (by decide)).2

/-! ### Claim C10 -/

/-- Claim C10: the deep-fetch pass leaves a candidate with an
already-resolved due date entirely unchanged, and never touches any
candidate's title or url. -/
theorem C10_deep_fetch_frame :
    (∀ (gd : String → Except String Nchu.DetailPage) (t : String)
        (d : PyDatetime) (u : String) (rest : List Nchu.Item),
      Nchu.deepFetchPass gd ((t, some d, u) :: rest)
        = (t, some d, u) :: Nchu.deepFetchPass gd rest) ∧
    (∀ (gd : String → Except String Nchu.DetailPage) (items : List Nchu.Item),
      (Nchu.deepFetchPass gd items).map (fun it => (it.1, it.2.2))
        = items.map (fun it => (it.1, it.2.2))) := by
  constructor
  · intro gd t d u rest
    rfl
  · intro gd items
    induction items with
    | nil => rfl
    | cons it rest ih =>
      rcases it with ⟨t, d, u⟩
      simpa [Nchu.deepFetchPass, Nchu.enrichOne] using ih

/-! ### Claim C2 -/

/-- `build_calendar` of V1 preserves awareness of the due instants it
copies into `begin`. -/
theorem V1.build_calendar_aware (tzname : String) (now : PyDatetime) :
    ∀ evs : List V1.EventV1,
      evs.all (fun ev => ev.due_at.tzinfo == some tzname) = true →
      (V1.build_calendar now evs).all
        (fun e => e.beginT.tzinfo == some tzname) = true
  | [], _ => rfl
  | ev :: rest, h => by
    rw [List.all_cons, Bool.and_eq_true] at h
    simp only [V1.build_calendar, List.all_cons, Bool.and_eq_true]
    exact ⟨h.1, V1.build_calendar_aware tzname now rest h.2⟩

/-- Claim C2: every assignment reaching calendar emission carries a
non-null, aware due instant in the configured zone: V1's table parser
only emits events with an aware `due_at` (and its calendar copies them),
and the NCHU calendar builder drops exactly the candidates whose due date
is absent, emitting aware instants for the rest. -/
theorem C2_emitted_due_aware :
    (∀ base cid tzname : String, ∀ rows : List Row,
      (V1.parse_assign_table base cid tzname rows).all
        (fun ev => ev.due_at.tzinfo == some tzname) = true) ∧
    (∀ base cid tzname : String, ∀ now : PyDatetime, ∀ rows : List Row,
      (V1.build_calendar now (V1.parse_assign_table base cid tzname rows)).all
        (fun e => e.beginT.tzinfo == some tzname) = true) ∧
    (∀ tzname : String, ∀ now : PyDatetime, ∀ items : List Nchu.Item,
      (Nchu.build_calendar tzname now items).all
        (fun e => e.beginT.tzinfo == some tzname) = true ∧
      (Nchu.build_calendar tzname now items).length
        = (items.filter (fun it => it.2.1.isSome)).length) := by
  have hparse : ∀ base cid tzname : String, ∀ rows : List Row,
      (V1.parse_assign_table base cid tzname rows).all
        (fun ev => ev.due_at.tzinfo == some tzname) = true := by
    intro base cid tzname rows
    induction rows with
    | nil => rfl
    | cons r rest ih =>
      unfold V1.parse_assign_table
      rcases hrow : V1.parseRow base cid tzname r with _ | ev
      · exact ih
      · rw [List.all_cons, Bool.and_eq_true]
        exact ⟨beq_iff_eq.mpr (V1.parseRow_tz hrow), ih⟩
  refine ⟨hparse, ?_, ?_⟩
  · intro base cid tzname now rows
    exact V1.build_calendar_aware tzname now _ (hparse base cid tzname rows)
  · intro tzname now items
    induction items with
    | nil => exact ⟨rfl, rfl⟩
    | cons it rest ih =>
      rcases it with ⟨t, d, u⟩
      rcases d with _ | due
      · refine ⟨?_, ?_⟩
        · simpa only [Nchu.build_calendar] using ih.1
        · simp only [Nchu.build_calendar, List.filter_cons]
          simpa using ih.2
      · refine ⟨?_, ?_⟩
        · simp only [Nchu.build_calendar, List.all_cons, Bool.and_eq_true]
          exact ⟨beq_iff_eq.mpr (toLocal_tzinfo tzname due), ih.1⟩
        · simp only [Nchu.build_calendar, List.filter_cons, List.length_cons]
          simpa using ih.2

/-! ### Claim C3 -/

/-- Claim C3, counterexample: in the NCHU variant a failing listing-page
fetch aborts the whole run — with the first of two pages failing, the
result is the error, although the second page alone would have produced a
candidate. -/
theorem C3_counterexample :
    (Nchu.mainLoop "http://e"
        (fun u => if u = "http://e/a" then .error "boom"
          else .ok [{ link := some ("/homework/content/5", "HW1"),
                      tds := ["截止: 2025-12-01 23:59"] }])
        false (fun _ => .error "na") ["http://e/a", "http://e/b"]
      = .error "boom") ∧
    (Nchu.mainLoop "http://e"
        (fun u => if u = "http://e/a" then .error "boom"
          else .ok [{ link := some ("/homework/content/5", "HW1"),
                      tds := ["截止: 2025-12-01 23:59"] }])
        false (fun _ => .error "na") ["http://e/b"]
      = .ok [("HW1", some ⟨2025, 12, 1, 23, 59, none⟩,
              "http://e/b/homework/content/5")]) := by
  exact ⟨rfl, rfl⟩

/-- Claim C3, amended: only the `ilearning_to_ics` variant recovers from a
per-course fetch failure (the failing course contributes nothing and the
remaining courses are still processed); in the NCHU variant the listing
fetch is not guarded, so the first failing page aborts the run with its
error. -/
theorem C3_fetch_failure :
    (∀ (f : String → Except String (List V1.EventV1))
        (pre : List String) (c : String) (post : List String) (e : String),
      f c = .error e →
      V1.mainLoop f (pre ++ c :: post) = V1.mainLoop f pre ++ V1.mainLoop f post) ∧
    (∀ (base : String) (fp : String → Except String (List Row)) (deep : Bool)
        (gd : String → Except String Nchu.DetailPage)
        (u : String) (us : List String) (e : String),
      fp (Nchu.to_abs base u) = .error e →
      Nchu.mainLoop base fp deep gd (u :: us) = .error e) := by
  constructor
  · intro f pre c post e hfc
    induction pre with
    | nil => simp only [List.nil_append, V1.mainLoop, hfc]
    | cons a pre ih =>
      simp only [List.cons_append, V1.mainLoop, ih]
      cases f a <;> simp [List.append_assoc, ih]
  · intro base fp deep gd u us e hf
    simp only [Nchu.mainLoop, hf]

/-- Claim C3, witness: both parts of the amended theorem at concrete
inputs — one failing course among two healthy ones in V1, and a failing
first page in NCHU. -/
theorem C3_fetch_failure_witness :
    (V1.mainLoop
        (fun cid => if cid = "bad" then .error "404"
          else .ok [⟨"HW " ++ cid, ⟨2025, 9, 20, 23, 59, some "Asia/Taipei"⟩,
            "http://b/" ++ cid, cid⟩])
        (["1"] ++ "bad" :: ["2"])
      = V1.mainLoop
          (fun cid => if cid = "bad" then .error "404"
            else .ok [⟨"HW " ++ cid, ⟨2025, 9, 20, 23, 59, some "Asia/Taipei"⟩,
              "http://b/" ++ cid, cid⟩]) ["1"]
        ++ V1.mainLoop
          (fun cid => if cid = "bad" then .error "404"
            else .ok [⟨"HW " ++ cid, ⟨2025, 9, 20, 23, 59, some "Asia/Taipei"⟩,
              "http://b/" ++ cid, cid⟩]) ["2"]) ∧
    Nchu.mainLoop "http://e" (fun _ => .error "down") false
        (fun _ => .error "na") ["x", "y"]
      = .error "down" :=
  ⟨C3_fetch_failure.1 _ ["1"] "bad" ["2"] "404" rfl,
    C3_fetch_failure.2 "http://e" _ false _ "x" ["y"] "down" rfl⟩

/-! ### Claim C4 -/

/-- Claim C4, counterexample: the claimed keyword set contains the
stand-alone Chinese keywords "期限" and "繳交", but the NCHU row scan only
knows 繳交期限/截止/到期/due — on a row whose only due-date cell is
labelled "期限", the V1 selector (which implements the claimed keyword
set) picks that cell, while the NCHU selector finds no labelled cell and
falls back to the whole joined row text. -/
theorem C4_counterexample :
    findDueCellV1 ["hw", "期限: 2025-12-01 23:59"]
      = some "期限: 2025-12-01 23:59" ∧
    findDueCellNchu ["hw", "期限: 2025-12-01 23:59"] = none ∧
    Nchu.rowDueText ["hw", "期限: 2025-12-01 23:59"]
      = "hw 期限: 2025-12-01 23:59" :=
  ⟨by decide, by decide, by decide⟩

/-- Claim C4, amended: both variants scan the row's cells in reverse
order and the rightmost cell containing a keyword wins, but the keyword
sets differ — V1 matches due/截止/繳交/期限/到期 while NCHU matches only
繳交期限/截止/到期/due; on the example row both variants select the last
cell. -/
theorem C4_due_cell_selection :
    (∀ (pre : List String) (cell : String) (post : List String),
      kwSearchV1 cell = true → (∀ x ∈ post, kwSearchV1 x = false) →
      findDueCellV1 (pre ++ cell :: post) = some cell) ∧
    (∀ (pre : List String) (cell : String) (post : List String),
      kwSearchNchu cell = true → (∀ x ∈ post, kwSearchNchu x = false) →
      findDueCellNchu (pre ++ cell :: post) = some cell) ∧
    findDueCellV1 ["CourseX", "Essay 1", "Submitted: none",
        "Due date: 2025-12-01 23:59"]
      = some "Due date: 2025-12-01 23:59" ∧
    findDueCellNchu ["CourseX", "Essay 1", "Submitted: none",
        "Due date: 2025-12-01 23:59"]
      = some "Due date: 2025-12-01 23:59" := by
  have key : ∀ (p : String → Bool) (pre : List String) (cell : String)
      (post : List String), p cell = true → (∀ x ∈ post, p x = false) →
      ((pre ++ cell :: post).reverse.find? p) = some cell := by
    intro p pre cell post hc hpost
    rw [List.reverse_append, List.reverse_cons, List.append_assoc]
    rw [find?_append_none _ (fun x hx => hpost x (List.mem_reverse.mp hx))]
    simp [List.find?, hc]
  exact ⟨fun pre cell post hc hp => key kwSearchV1 pre cell post hc hp,
    fun pre cell post hc hp => key kwSearchNchu pre cell post hc hp,
    by decide, by decide⟩

/-- Claim C4, witness: rightmost-wins applied at concrete rows — a V1 row
whose keyword cell says "繳交" followed by a keyword-free cell, and an
NCHU row whose keyword cell says "到期" followed by a keyword-free
cell. -/
theorem C4_due_cell_selection_witness :
    findDueCellV1 (["x"] ++ "繳交: 2025-01-02" :: ["y"])
      = some "繳交: 2025-01-02" ∧
    findDueCellNchu (["x"] ++ "到期 2025-01-02" :: ["y"])
      = some "到期 2025-01-02" :=
  ⟨C4_due_cell_selection.1 ["x"] "繳交: 2025-01-02" ["y"] (by decide)
      (by decide),
    C4_due_cell_selection.2.1 ["x"] "到期 2025-01-02" ["y"] (by decide)
      (by decide)⟩

/-! ### Claim C5 -/

/-- Claim C5: label stripping is language-agnostic — the English-labelled
and the Chinese-labelled text normalize to the same instant,
2025-09-20T23:59 in the configured zone, in both variants (in NCHU the
residual token "date:" left by deleting "Due " is skipped by the fuzzy
parse). -/
theorem C5_label_agnostic (tzname : String) :
    V1.normalize tzname "Due date: 2025-09-20 23:59"
      = some ⟨2025, 9, 20, 23, 59, some tzname⟩ ∧
    V1.normalize tzname "截止：2025-09-20 23:59"
      = some ⟨2025, 9, 20, 23, 59, some tzname⟩ ∧
    (Nchu.parse_due "Due date: 2025-09-20 23:59").map (toLocal tzname)
      = some ⟨2025, 9, 20, 23, 59, some tzname⟩ ∧
    (Nchu.parse_due "截止：2025-09-20 23:59").map (toLocal tzname)
      = some ⟨2025, 9, 20, 23, 59, some tzname⟩ := by
  have h1 : dtparse true false (stripLabelV1 "Due date: 2025-09-20 23:59")
      = some ⟨2025, 9, 20, 23, 59, none⟩ := by decide
  have h2 : dtparse true false (stripLabelV1 "截止：2025-09-20 23:59")
      = some ⟨2025, 9, 20, 23, 59, none⟩ := by decide
  have h3 : Nchu.parse_due "Due date: 2025-09-20 23:59"
      = some ⟨2025, 9, 20, 23, 59, none⟩ := by decide
  have h4 : Nchu.parse_due "截止：2025-09-20 23:59"
      = some ⟨2025, 9, 20, 23, 59, none⟩ := by decide
  refine ⟨?_, ?_, ?_, ?_⟩
  · unfold V1.normalize
    rw [h1]
    rfl
  · unfold V1.normalize
    rw [h2]
    rfl
  · rw [h3]
    rfl
  · rw [h4]
    rfl

/-! ### Claim C6 -/

/-- Claim C6, counterexample: the V1 parser has no title check — a row
whose link text is blank but whose due cell parses is emitted by
`parse_assign_table` with an empty title, and V1's `build_calendar`
emits a calendar event for it. -/
theorem C6_counterexample :
    (V1.parse_assign_table "http://base" "c1" "Asia/Taipei"
        [{ link := some ("mod/assign/view.php?id=7", "  "),
           tds := ["到期: 2025-12-01 23:59"] }]).map (fun ev => ev.title)
      = [""] ∧
    (V1.build_calendar sampleNow
        (V1.parse_assign_table "http://base" "c1" "Asia/Taipei"
          [{ link := some ("mod/assign/view.php?id=7", "  "),
             tds := ["到期: 2025-12-01 23:59"] }])).map (fun e => e.name)
      = ["[iLearning] "] := by
  exact ⟨by decide, by decide⟩

/-- Claim C6, amended: only the NCHU variant discards candidates with an
empty (trimmed) title — its per-page processing filters them out before
emission; the V1 variant never checks titles, its calendar builder
emitting one event per parsed assignment unconditionally. -/
theorem C6_empty_title :
    (∀ (deep : Bool) (gd : String → Except String Nchu.DetailPage)
        (listUrl : String) (rows : List Row),
      (Nchu.processPage deep gd listUrl rows).all (fun it => it.1 != "")
        = true) ∧
    (∀ (now : PyDatetime) (evs : List V1.EventV1),
      (V1.build_calendar now evs).length = evs.length) := by
  constructor
  · intro deep gd listUrl rows
    exact List.all_eq_true.mpr
      (fun it hit => (List.mem_filter.mp hit).2)
  · intro now evs
    induction evs with
    | nil => rfl
    | cons ev rest ih => simpa [V1.build_calendar] using ih

/-! ### Claim C7 -/

/-- Claim C7, counterexample: in the NCHU variant a keyword-free row does
NOT hand the matched date token to the normalizer — `rowDueText` falls
back to the whole joined row text, which differs from the token the
date-shaped search would extract. -/
theorem C7_counterexample :
    Nchu.rowDueText ["Course A", "see 2025/11/03 18:00 later"]
      = "Course A see 2025/11/03 18:00 later" ∧
    dateTokSearchNchu (joinSpace ["Course A", "see 2025/11/03 18:00 later"])
      = some "2025/11/03 18:00" ∧
    ("Course A see 2025/11/03 18:00 later" : String) ≠ "2025/11/03 18:00" :=
  ⟨by decide, by decide, by decide⟩

/-- Claim C7, amended: on a keyword-free row, V1 hands exactly the
matched date-shaped token to its normalizer, but the NCHU variant hands
the whole joined row text to `parse_due`, whose internal second stage
extracts a date token only when the permissive parse of that whole text
fails. -/
theorem C7_fallback_token :
    (∀ tds : List String, findDueCellV1 tds = none →
      V1.rowDueText tds = dateTokSearchV1 (joinSpace tds)) ∧
    V1.rowDueText ["Course A", "see 2025/11/03 18:00 later"]
      = some "2025/11/03 18:00" ∧
    (∀ tds : List String, findDueCellNchu tds = none →
      Nchu.rowDueText tds = joinSpace tds) ∧
    (∀ s : String, dtparse true false (subLabelsNchu s) = none →
      Nchu.parse_due s
        = (dateTokSearchNchu (subLabelsNchu s)).bind (dtparse true false)) := by
  refine ⟨?_, by decide, ?_, ?_⟩
  · intro tds h
    unfold V1.rowDueText
    rw [h]
  · intro tds h
    unfold Nchu.rowDueText
    rw [h]
  · intro s h
    unfold Nchu.parse_due
    dsimp only
    rw [h]
    cases dateTokSearchNchu (subLabelsNchu s) <;> rfl

/-- Claim C7, witness: the amended theorem's three conditional parts at
concrete inputs — a keyword-free V1 row, a keyword-free NCHU row, and a
text with two date triples (so that the NCHU permissive parse fails and
the token fallback is exercised). -/
theorem C7_fallback_token_witness :
    V1.rowDueText ["abc", "xy 2025/03/04"]
      = dateTokSearchV1 (joinSpace ["abc", "xy 2025/03/04"]) ∧
    Nchu.rowDueText ["abc", "xy"] = joinSpace ["abc", "xy"] ∧
    Nchu.parse_due "2025/03/04 2025/05/06"
      = (dateTokSearchNchu (subLabelsNchu "2025/03/04 2025/05/06")).bind
          (dtparse true false) :=
  ⟨C7_fallback_token.1 ["abc", "xy 2025/03/04"] (by decide),
    C7_fallback_token.2.2.1 ["abc", "xy"] (by decide),
    C7_fallback_token.2.2.2 "2025/03/04 2025/05/06" (by decide)⟩

/-! ### Claim C8 -/

/-- Claim C8: ambiguous numeric dates resolve month-first at every parse
site — "03/04/2025" yields month 3, day 4 through the V1 normalizer, the
NCHU `parse_due`, and the bare fallback parser call (which with
`dayfirst` set instead would give day 3, month 4); the NCHU token
fallback, exercised by a two-triple text that defeats the permissive
parse, also resolves month-first. -/
theorem C8_month_first (tzname : String) :
    V1.normalize tzname "03/04/2025"
      = some ⟨2025, 3, 4, 0, 0, some tzname⟩ ∧
    Nchu.parse_due "03/04/2025" = some ⟨2025, 3, 4, 0, 0, none⟩ ∧
    dtparse true false "03/04/2025" = some ⟨2025, 3, 4, 0, 0, none⟩ ∧
    dtparse true true "03/04/2025" = some ⟨2025, 4, 3, 0, 0, none⟩ ∧
    dtparse true false (subLabelsNchu "2025/03/04 2025/05/06") = none ∧
    Nchu.parse_due "2025/03/04 2025/05/06"
      = some ⟨2025, 3, 4, 0, 0, none⟩ := by
  have h1 : dtparse true false (stripLabelV1 "03/04/2025")
      = some ⟨2025, 3, 4, 0, 0, none⟩ := by decide
  refine ⟨?_, by decide, by decide, by decide, by decide, by decide⟩
  unfold V1.normalize
  rw [h1]
  rfl

/-! ### Claim C9 -/

/-- Claim C9: the deep-fetch pass acts on each candidate independently
(it distributes over concatenation); a fetch failure for one candidate
leaves exactly that candidate with no due date; and such a candidate is
dropped at calendar emission while the rest of the batch is built as if
the candidate were absent. -/
theorem C9_deep_fetch_isolation :
    (∀ (gd : String → Except String Nchu.DetailPage)
        (l1 l2 : List Nchu.Item),
      Nchu.deepFetchPass gd (l1 ++ l2)
        = Nchu.deepFetchPass gd l1 ++ Nchu.deepFetchPass gd l2) ∧
    (∀ (gd : String → Except String Nchu.DetailPage) (t u e : String),
      gd u = .error e →
      Nchu.enrichOne gd (t, none, u) = (t, none, u)) ∧
    (∀ (tzname : String) (now : PyDatetime)
        (gd : String → Except String Nchu.DetailPage) (t u e : String)
        (rest : List Nchu.Item),
      gd u = .error e →
      Nchu.build_calendar tzname now
          (Nchu.deepFetchPass gd ((t, (none : Option PyDatetime), u) :: rest))
        = Nchu.build_calendar tzname now (Nchu.deepFetchPass gd rest)) := by
  refine ⟨?_, ?_, ?_⟩
  · intro gd l1 l2
    induction l1 with
    | nil => rfl
    | cons it rest ih => simp [Nchu.deepFetchPass, ih]
  · intro gd t u e h
    simp [Nchu.enrichOne, h]
  · intro tzname now gd t u e rest h
    simp [Nchu.deepFetchPass, Nchu.enrichOne, h, Nchu.build_calendar]

/-- Claim C9, witness: the three parts at concrete inputs with a detail
fetcher that always fails. -/
theorem C9_deep_fetch_isolation_witness :
    Nchu.deepFetchPass (fun _ => (.error "down" : Except String Nchu.DetailPage))
        ([("A", none, "u1")] ++ [("B", some ⟨2025, 1, 2, 3, 4, none⟩, "u2")])
      = Nchu.deepFetchPass (fun _ => .error "down") [("A", none, "u1")]
        ++ Nchu.deepFetchPass (fun _ => .error "down")
            [("B", some ⟨2025, 1, 2, 3, 4, none⟩, "u2")] ∧
    Nchu.enrichOne (fun _ => (.error "down" : Except String Nchu.DetailPage))
        ("A", none, "u1") = ("A", none, "u1") ∧
    Nchu.build_calendar "Asia/Taipei" sampleNow
        (Nchu.deepFetchPass (fun _ => (.error "down" : Except String Nchu.DetailPage))
          (("A", (none : Option PyDatetime), "u1")
            :: [("B", some ⟨2025, 1, 2, 3, 4, none⟩, "u2")]))
      = Nchu.build_calendar "Asia/Taipei" sampleNow
          (Nchu.deepFetchPass (fun _ => .error "down")
            [("B", some ⟨2025, 1, 2, 3, 4, none⟩, "u2")]) :=
  ⟨C9_deep_fetch_isolation.1 _ [("A", none, "u1")]
      [("B", some ⟨2025, 1, 2, 3, 4, none⟩, "u2")],
    C9_deep_fetch_isolation.2.1 _ "A" "u1" "down" rfl,
    C9_deep_fetch_isolation.2.2 "Asia/Taipei" sampleNow _ "A" "u1" "down"
      [("B", some ⟨2025, 1, 2, 3, 4, none⟩, "u2")] rfl⟩
